import Mathlib

/-!
Verification development for the Geotrek topology / linear-referencing engine
(trekking relationship queries, altimetry defaults, path-split redistribution).

The Python models of `geotrek/trekking/models.py` and
`geotrek/altimetry/models.py` are embedded shallowly: Django querysets become
Lean lists, queryset filters become `List.filter`, and geometries become
rational point lists.  Parts of the engine that live in `geotrek.core` /
`geotrek.common` (the `Topology.overlapping` classmethod, the
`NoDeleteManager.existing` manager, the path `split` operation and the
elevation sampler implemented as database triggers) are modelled from the
specification; each such definition carries a doc comment starting with
`Modelled from the spec:`.
-/

/-! ## Geometry

Projected 2D geometry.  A geometry is either a point or a linestring over
rational planar coordinates.  Buffered intersection
(`geom.buffer(margin).intersects(other)`) is embedded as point-set proximity:
some vertex of one geometry lies within `margin` of some vertex of the other
(squared distances, to stay inside ℚ). -/

abbrev Pt := ℚ × ℚ

abbrev Pt3 := ℚ × ℚ × ℚ

inductive Geom where
  | point (p : Pt)
  | linestring (pts : List Pt)
  deriving DecidableEq, Repr

def Geom.pts : Geom → List Pt
  | .point p => [p]
  | .linestring l => l

def distSq (p q : Pt) : ℚ :=
  (p.1 - q.1) ^ 2 + (p.2 - q.2) ^ 2

/-- `g1.buffer(margin).intersects(g2)`: some vertex of `g1` is within
`margin` of some vertex of `g2`. -/
def bufferIntersects (g1 : Geom) (margin : ℚ) (g2 : Geom) : Bool :=
  g1.pts.any fun p => g2.pts.any fun q => distSq p q ≤ margin ^ 2

/-! ## Data model: aggregations, topologies, features -/

/-- `core.PathAggregation`: one element of a topology, referencing a fractional
range of one path segment, with a rank and (per the spec's data model) a
lateral offset. -/
structure PathAggregation where
  path : Nat
  start_position : ℚ
  end_position : ℚ
  order : Nat
  lateral_offset : ℚ
  deriving DecidableEq, Repr

/-- `core.Topology`: identity, logical-deletion flag, cached 2D geometry and
the ordered aggregation list. -/
structure Topology where
  id : Nat
  deleted : Bool
  geom : Geom
  aggregations : List PathAggregation
  deriving DecidableEq, Repr

/-- `trekking.Practice` (the fields the engine reads: pk and the configured
touristic distance, an integer column that may be NULL). -/
structure Practice where
  id : Nat
  distance : Option Int
  deriving DecidableEq, Repr

/-- `trekking.Trek` restricted to the fields the relationship queries read. -/
structure Trek where
  topo : Topology
  published : Bool
  practice : Option Practice
  pois_excluded : List Nat
  deriving DecidableEq, Repr

/-- `trekking.POIType` (pk only). -/
structure POIType where
  id : Nat
  deriving DecidableEq, Repr

/-- `trekking.POI` restricted to the fields the relationship queries read. -/
structure POI where
  topo : Topology
  published : Bool
  type : POIType
  deriving DecidableEq, Repr

/-- `trekking.ServiceType`: publication flag and the many-to-many set of
practice ids. -/
structure ServiceType where
  id : Nat
  published : Bool
  practices : List Nat
  deriving DecidableEq, Repr

/-- `trekking.Service` restricted to the fields the relationship queries read. -/
structure Service where
  topo : Topology
  type : ServiceType
  deriving DecidableEq, Repr

/-- The Django settings the queries consult. -/
structure Settings where
  TREKKING_TOPOLOGY_ENABLED : Bool
  TREK_POI_INTERSECTION_MARGIN : ℚ
  TOURISM_INTERSECTION_MARGIN : Int
  deriving DecidableEq, Repr

/-- `trekking.OrderedTrekChild`: parent/child trek pks plus an order rank. -/
structure OrderedTrekChild where
  parent : Nat
  child : Nat
  order : Nat
  deriving DecidableEq, Repr

/-- The database state the queries run against. -/
structure DB where
  treks : List Trek
  pois : List POI
  services : List Service
  trek_children : List OrderedTrekChild
  deriving Repr

/-- The `topology` argument of the relationship queries: in Python any model
instance can be passed; `Service.topology_services` tests `isinstance(topology,
Trek)` and `POI.exclude_pois` reads `topology.trek`, so the embedding keeps
track of whether the reference object is a Trek. -/
inductive RefTopology where
  | trek (t : Trek)
  | topo (t : Topology)
  deriving DecidableEq, Repr

def RefTopology.geomTopo : RefTopology → Topology
  | .trek t => t.topo
  | .topo t => t

/-! ## Queryset helpers -/

/-- Stable insertion of `x` into `l` by key (strictly-smaller keys pass,
so equal keys keep their original relative order). -/
def insertByKey (key : α → ℚ) (x : α) : List α → List α
  | [] => [x]
  | y :: ys => if key x < key y then x :: y :: ys else y :: insertByKey key x ys

/-- Stable sort by a rational key (`order_by`). -/
def sortByKey (key : α → ℚ) : List α → List α
  | [] => []
  | x :: xs => insertByKey key x (sortByKey key xs)

/-- `distinct(col)`: keep the first row for each key value already seen. -/
def distinctByKeyAux (key : α → Nat) (seen : List Nat) : List α → List α
  | [] => []
  | x :: xs =>
    if seen.contains (key x) then distinctByKeyAux key seen xs
    else x :: distinctByKeyAux key (key x :: seen) xs

/-- `distinct(col)`: keep the first row for each key. -/
def distinctByKey (key : α → Nat) (l : List α) : List α :=
  distinctByKeyAux key [] l

/-! ## Spec-modelled core operations -/

/-- Modelled from the spec: overlap test of the topological mode
(`geotrek.core` is not under `src/`): two [start,end] ranges on the same
segment overlap, after normalizing each range's direction. -/
def rangesOverlap (a b : PathAggregation) : Bool :=
  decide (min a.start_position a.end_position ≤ max b.start_position b.end_position) &&
  decide (min b.start_position b.end_position ≤ max a.start_position a.end_position)

/-- Modelled from the spec: topological-mode overlap — "feature A `overlaps`
feature B if they share at least one PathSegment id in their Aggregation sets
with overlapping [start,end] ranges". -/
def topologiesOverlap (t u : Topology) : Bool :=
  t.aggregations.any fun a => u.aggregations.any fun b =>
    a.path == b.path && rangesOverlap a b

/-- Modelled from the spec: `NoDeleteManager` / `objects.existing()`
(`geotrek.common.mixins`, not under `src/`) — relationship queries "must
exclude logically-deleted features". -/
def existingTreks (db : DB) : List Trek :=
  db.treks.filter fun t => !t.topo.deleted

/-- Modelled from the spec: `objects.existing()` for POIs. -/
def existingPois (db : DB) : List POI :=
  db.pois.filter fun p => !p.topo.deleted

/-- Modelled from the spec: `objects.existing()` for services. -/
def existingServices (db : DB) : List Service :=
  db.services.filter fun s => !s.topo.deleted

/-- Modelled from the spec: `Topology.overlapping` classmethod restricted to
the Trek table (`geotrek.core`, not under `src/`) — the existing (non-deleted)
treks whose aggregation sets topologically overlap the reference topology. -/
def Trek.overlapping (db : DB) (topology : Topology) : List Trek :=
  (existingTreks db).filter fun t => topologiesOverlap t.topo topology

/-- Modelled from the spec: `Topology.overlapping` restricted to the POI table. -/
def POI.overlapping (db : DB) (topology : Topology) : List POI :=
  (existingPois db).filter fun p => topologiesOverlap p.topo topology

/-- Modelled from the spec: `Topology.overlapping` restricted to the Service
table. -/
def Service.overlapping (db : DB) (topology : Topology) : List Service :=
  (existingServices db).filter fun s => topologiesOverlap s.topo topology

/-! ## Relationship queries (`geotrek/trekking/models.py`) -/

/-- `Trek.path_treks`: existing treks aggregating over `path`, ordered and
de-duplicated on the underlying topology pk. -/
def Trek.path_treks (db : DB) (path : Nat) : List Trek :=
  let treks := (existingTreks db).filter fun t =>
    t.topo.aggregations.any fun a => a.path == path
  distinctByKey (fun t => t.topo.id) (sortByKey (fun t => (t.topo.id : ℚ)) treks)

/-- `Trek.topology_treks`: topological overlap when
`TREKKING_TOPOLOGY_ENABLED`, otherwise intersection with the reference
geometry buffered by `TREK_POI_INTERSECTION_MARGIN`. -/
def Trek.topology_treks (s : Settings) (db : DB) (topology : RefTopology) : List Trek :=
  if s.TREKKING_TOPOLOGY_ENABLED then
    Trek.overlapping db topology.geomTopo
  else
    (existingTreks db).filter fun t =>
      bufferIntersects topology.geomTopo.geom s.TREK_POI_INTERSECTION_MARGIN t.topo.geom

/-- `Trek.published_topology_treks`. -/
def Trek.published_topology_treks (s : Settings) (db : DB) (topology : RefTopology) : List Trek :=
  (Trek.topology_treks s db topology).filter fun t => t.published

/-- `POI.path_pois`: existing POIs aggregating over `path`, de-duplicated on pk. -/
def POI.path_pois (db : DB) (path : Nat) : List POI :=
  distinctByKey (fun p => p.topo.id)
    ((existingPois db).filter fun p => p.topo.aggregations.any fun a => a.path == path)

/-- `LineLocatePoint`, embedded as the fractional index (position `i/(n-1)`)
of the vertex of `line` nearest to `p` (first nearest vertex wins). -/
def lineLocate (line : List Pt) (p : Pt) : ℚ :=
  match line.findIdx? (fun q => line.all fun r => distSq p q ≤ distSq p r) with
  | some i => if line.length ≤ 1 then 0 else (i : ℚ) / ((line.length : ℚ) - 1)
  | none => 0

/-- Representative point of a geometry (a POI's geometry is a point). -/
def Geom.reprPoint : Geom → Pt
  | .point p => p
  | .linestring l => l.headD (0, 0)

/-- `POI.topology_all_pois`: topological overlap when
`TREKKING_TOPOLOGY_ENABLED`; otherwise buffered intersection, ordered along
the reference geometry (`LineLocatePoint`) when it is a linestring. -/
def POI.topology_all_pois (s : Settings) (db : DB) (topology : RefTopology) : List POI :=
  if s.TREKKING_TOPOLOGY_ENABLED then
    POI.overlapping db topology.geomTopo
  else
    let object_geom := topology.geomTopo.geom
    let qs := (existingPois db).filter fun p =>
      bufferIntersects object_geom s.TREK_POI_INTERSECTION_MARGIN p.topo.geom
    match object_geom with
    | .linestring line => sortByKey (fun p => lineLocate line p.topo.geom.reprPoint) qs
    | .point _ => qs

/-- `POI.exclude_pois`: when the reference topology is a Trek, drop the POIs
that trek explicitly excludes (`topology.trek.pois_excluded`); for any other
topology `Trek.DoesNotExist` is caught and the queryset returned unchanged. -/
def POI.exclude_pois (qs : List POI) (topology : RefTopology) : List POI :=
  match topology with
  | .trek t => qs.filter fun p => !t.pois_excluded.contains p.topo.id
  | .topo _ => qs

/-- `POI.topology_pois`. -/
def POI.topology_pois (s : Settings) (db : DB) (topology : RefTopology) : List POI :=
  POI.exclude_pois (POI.topology_all_pois s db topology) topology

/-- `POI.published_topology_pois`. -/
def POI.published_topology_pois (s : Settings) (db : DB) (topology : RefTopology) : List POI :=
  (POI.topology_pois s db topology).filter fun p => p.published

/-- `Service.path_services`: existing services aggregating over `path`,
de-duplicated on pk. -/
def Service.path_services (db : DB) (path : Nat) : List Service :=
  distinctByKey (fun sv => sv.topo.id)
    ((existingServices db).filter fun sv => sv.topo.aggregations.any fun a => a.path == path)

/-- `filter(type__practices=topology.practice)`: with a practice, services
whose type lists it; with `None`, Django's M2M `= None` lookup matches types
with no practice at all. -/
def practiceFilterMatch (ty : ServiceType) (practice : Option Practice) : Bool :=
  match practice with
  | some p => ty.practices.contains p.id
  | none => ty.practices.isEmpty

/-- `Service.topology_services`: topological overlap when
`TREKKING_TOPOLOGY_ENABLED`, otherwise buffered intersection; when the
reference topology is a Trek the result is additionally filtered on
`type__practices=topology.practice`. -/
def Service.topology_services (s : Settings) (db : DB) (topology : RefTopology) : List Service :=
  let qs :=
    if s.TREKKING_TOPOLOGY_ENABLED then
      Service.overlapping db topology.geomTopo
    else
      (existingServices db).filter fun sv =>
        bufferIntersects topology.geomTopo.geom s.TREK_POI_INTERSECTION_MARGIN sv.topo.geom
  match topology with
  | .trek t => qs.filter fun sv => practiceFilterMatch sv.type t.practice
  | .topo _ => qs

/-- `Service.published_topology_services`. -/
def Service.published_topology_services (s : Settings) (db : DB) (topology : RefTopology) : List Service :=
  (Service.topology_services s db topology).filter fun sv => sv.type.published

/-! ## Proximity margins (`distance` methods) -/

/-- `Trek.distance(to_cls)`: the practice's configured distance when present
and non-NULL, else `TOURISM_INTERSECTION_MARGIN`.  The `to_cls` argument is
unused by all three implementations and is dropped. -/
def Trek.distance (s : Settings) (t : Trek) : Int :=
  match t.practice with
  | some p =>
    match p.distance with
    | some d => d
    | none => s.TOURISM_INTERSECTION_MARGIN
  | none => s.TOURISM_INTERSECTION_MARGIN

/-- `POI.distance(to_cls)`: always the global margin. -/
def POI.distance (s : Settings) (_p : POI) : Int :=
  s.TOURISM_INTERSECTION_MARGIN

/-- `Service.distance(to_cls)`: always the global margin. -/
def Service.distance (s : Settings) (_sv : Service) : Int :=
  s.TOURISM_INTERSECTION_MARGIN

/-! ## Path split (`geotrek.core`, modelled from the spec) -/

/-- A path segment as the split operation sees it: stable id plus 2D length. -/
structure SplitSegment where
  id : Nat
  length : ℚ
  deriving DecidableEq, Repr

/-- Modelled from the spec: the segment part of
`split(segment_id, at_position)` (`geotrek.core` is not under `src/`) — the
segment of length `L` becomes two segments of lengths `t * L` and
`(1 - t) * L`. -/
def splitSegment (seg : SplitSegment) (t : ℚ) (idA idB : Nat) :
    SplitSegment × SplitSegment :=
  ({ id := idA, length := t * seg.length },
   { id := idB, length := (1 - t) * seg.length })

/-- Modelled from the spec: redistribution of one aggregation by
`split(segment_id, at_position)` — an aggregation spanning the split point
becomes two aggregations, one per resulting segment, with positions rescaled
into each new segment's [0,1] parameterization, preserving order and
lateral_offset; an aggregation on one side only is rescaled onto that side's
segment.  Aggregations are taken in the segment's canonical direction
(start_position ≤ end_position, as in the spec's scenario). -/
def splitAggregation (segId : Nat) (t : ℚ) (idA idB : Nat)
    (a : PathAggregation) : List PathAggregation :=
  if a.path == segId then
    if a.start_position < t ∧ t < a.end_position then
      [{ a with path := idA, start_position := a.start_position / t, end_position := 1 },
       { a with path := idB, start_position := 0, end_position := (a.end_position - t) / (1 - t) }]
    else if a.end_position ≤ t then
      [{ a with path := idA, start_position := a.start_position / t,
                end_position := a.end_position / t }]
    else
      [{ a with path := idB, start_position := (a.start_position - t) / (1 - t),
                end_position := (a.end_position - t) / (1 - t) }]
  else [a]

/-- Modelled from the spec: redistribution of a topology's whole aggregation
list by a split, keeping traversal order. -/
def splitAggregations (segId : Nat) (t : ℚ) (idA idB : Nat)
    (aggs : List PathAggregation) : List PathAggregation :=
  (aggs.map (splitAggregation segId t idA idB)).flatten

/-! ## Elevation sampler (`geotrek.altimetry` DB triggers, modelled from the
spec)

Euclidean length is not rational, so the sampler is parameterized by the
planar and 3D distance functions (`dist2`, `dist3`); the claims proved below
hold for every choice of them. -/

/-- The derived-field cache shape of `AltimetryMixin`
(`geotrek/altimetry/models.py`): `geom_3d`, 3D `length`, `ascent`, `descent`,
`min_elevation`, `max_elevation`, `slope`, each defaulting to zero. -/
structure ElevDerived where
  geom_3d : List Pt3
  length_3d : ℚ
  ascent : ℚ
  descent : ℚ
  min_elevation : ℚ
  max_elevation : ℚ
  slope : ℚ
  deriving DecidableEq, Repr

def polylineLength (dist : α → α → ℚ) : List α → ℚ
  | [] => 0
  | [_] => 0
  | p :: q :: rest => dist p q + polylineLength dist (q :: rest)

def lerp (p q : Pt) (t : ℚ) : Pt :=
  (p.1 + t * (q.1 - p.1), p.2 + t * (q.2 - p.2))

/-- Densification of one chord: the points from `p` (inclusive) to `q`
(exclusive), at most `maxLen` apart. -/
def densifySeg (dist2 : Pt → Pt → ℚ) (maxLen : ℚ) (p q : Pt) : List Pt :=
  let n := if maxLen ≤ 0 then 1 else max 1 (dist2 p q / maxLen).ceil.toNat
  (List.range n).map fun k => lerp p q ((k : ℚ) / (n : ℚ))

/-- Densification of a polyline at a maximum chord length. -/
def densify (dist2 : Pt → Pt → ℚ) (maxLen : ℚ) : List Pt → List Pt
  | [] => []
  | [p] => [p]
  | p :: q :: rest => densifySeg dist2 maxLen p q ++ densify dist2 maxLen (q :: rest)

/-- NoData samples carry forward the last valid elevation. -/
def carryForward (z0 : ℚ) : List (Option ℚ) → List ℚ
  | [] => []
  | some z :: rest => z :: carryForward z rest
  | none :: rest => z0 :: carryForward z0 rest

/-- First valid sample of a list, defaulting to 0. -/
def firstValid (zs : List (Option ℚ)) : ℚ :=
  (zs.filterMap id).headD 0

/-- Sum of positive elevation deltas between consecutive valid samples. -/
def ascentOf : List ℚ → ℚ
  | [] => 0
  | [_] => 0
  | a :: b :: rest => max 0 (b - a) + ascentOf (b :: rest)

/-- Sum of absolute negative elevation deltas between consecutive valid
samples. -/
def descentOf : List ℚ → ℚ
  | [] => 0
  | [_] => 0
  | a :: b :: rest => max 0 (a - b) + descentOf (b :: rest)

def minOf : List ℚ → ℚ
  | [] => 0
  | x :: xs => xs.foldl min x

def maxOf : List ℚ → ℚ
  | [] => 0
  | x :: xs => xs.foldl max x

/-- Modelled from the spec: the Elevation Sampler (§4.2; implemented as DB
triggers in the original system, not under `src/`).  An input with fewer than
2 coordinates or zero 2D length yields all metrics 0 and `geom_3d` equal to
`geom_2d` lifted to a constant elevation; otherwise the polyline is densified,
sampled, NoData carried forward, and the scalar metrics computed from the
valid samples, with `slope = (max - min) / length_2d`.  When every sample is
NoData the metrics fall back to all-zero. -/
def elevationSample (dist2 : Pt → Pt → ℚ) (dist3 : Pt3 → Pt3 → ℚ)
    (raster : Pt → Option ℚ) (maxLen : ℚ) (geom2d : List Pt) : ElevDerived :=
  let length_2d := polylineLength dist2 geom2d
  if geom2d.length < 2 ∨ length_2d = 0 then
    let c := firstValid (geom2d.map raster)
    { geom_3d := geom2d.map fun p => (p.1, p.2, c)
      length_3d := 0, ascent := 0, descent := 0
      min_elevation := 0, max_elevation := 0, slope := 0 }
  else
    let pts := densify dist2 maxLen geom2d
    let samples := pts.map raster
    let valid := samples.filterMap id
    if valid.isEmpty then
      { geom_3d := pts.map fun p => (p.1, p.2, 0)
        length_3d := 0, ascent := 0, descent := 0
        min_elevation := 0, max_elevation := 0, slope := 0 }
    else
      let zs := carryForward (firstValid samples) samples
      let geom_3d := (pts.zip zs).map fun pz => (pz.1.1, pz.1.2, pz.2)
      { geom_3d := geom_3d
        length_3d := polylineLength dist3 geom_3d
        ascent := ascentOf valid
        descent := descentOf valid
        min_elevation := minOf valid
        max_elevation := maxOf valid
        slope := (maxOf valid - minOf valid) / length_2d }

/-! ## `Trek.save` (geometry-preserving update) -/

/-- The concrete fields of the embedded Trek row (a representative subset of
`Trek._meta.concrete_fields`; `pk` is the primary key, many-to-many fields are
not concrete fields). -/
inductive TrekField where
  | name | departure | arrival | duration | practice | published | deleted
  | geom | geom_3d
  deriving DecidableEq, Repr

/-- The initial `field_names` set of `Trek.save`: every concrete,
non-primary-key, non-many-to-many field. -/
def trekConcreteFields : List TrekField :=
  [.name, .departure, .arrival, .duration, .practice, .published, .deleted,
   .geom, .geom_3d]

/-- A stored Trek row. -/
structure TrekRow where
  pk : Option Nat
  name : String
  departure : String
  arrival : String
  duration : Option ℚ
  practice_id : Option Nat
  published : Bool
  deleted : Bool
  geom : Option (List Pt)
  geom_3d : Option (List Pt3)
  deriving DecidableEq, Repr

/-- GEOS `equals_exact(other, tolerance)` for 2D linestrings: identical vertex
count and pairwise vertex distance within the tolerance. -/
def equalsExact2 (g1 g2 : List Pt) (tol : ℚ) : Bool :=
  g1.length == g2.length &&
    (g1.zip g2).all fun pq => distSq pq.1 pq.2 ≤ tol ^ 2

def distSq3xy (p q : Pt3) : ℚ :=
  (p.1 - q.1) ^ 2 + (p.2.1 - q.2.1) ^ 2

/-- GEOS `equals_exact` for 3D linestrings (GEOS compares planar
coordinates). -/
def equalsExact3 (g1 g2 : List Pt3) (tol : ℚ) : Bool :=
  g1.length == g2.length &&
    (g1.zip g2).all fun pq => distSq3xy pq.1 pq.2 ≤ tol ^ 2

/-- An UPDATE writing exactly the fields in `fields` from `self`, keeping the
stored value for the others; the primary key is never written. -/
def writeFields (old self : TrekRow) (fields : List TrekField) : TrekRow :=
  { pk := old.pk
    name := if fields.contains .name then self.name else old.name
    departure := if fields.contains .departure then self.departure else old.departure
    arrival := if fields.contains .arrival then self.arrival else old.arrival
    duration := if fields.contains .duration then self.duration else old.duration
    practice_id := if fields.contains .practice then self.practice_id else old.practice_id
    published := if fields.contains .published then self.published else old.published
    deleted := if fields.contains .deleted then self.deleted else old.deleted
    geom := if fields.contains .geom then self.geom else old.geom
    geom_3d := if fields.contains .geom_3d then self.geom_3d else old.geom_3d }

/-- The base framework `Model.save(update_fields=...)`: insert when the row
has no pk or no stored row matches it, otherwise update the given fields (all
concrete non-pk fields by default) of the stored row with this pk. -/
def superSave (db : List TrekRow) (self : TrekRow)
    (update_fields : Option (List TrekField)) : List TrekRow :=
  match self.pk with
  | none => db ++ [self]
  | some k =>
    if db.any fun r => r.pk == some k then
      db.map fun r =>
        if r.pk == some k then writeFields r self (update_fields.getD trekConcreteFields)
        else r
    else db ++ [self]

/-- `tolerance=0.00001` of `Trek.save`. -/
def geotrekTolerance : ℚ := 1 / 100000

/-- `Trek.save`: for an already-persisted trek saved without `update_fields`,
start from every concrete non-pk non-m2m field, drop `geom` (resp. `geom_3d`)
when the new geometry equals the stored one within tolerance `0.00001`, and
update only the remaining fields.  `none` models the Python exceptions
(`Trek.objects.get` finding no row, or `old_trek.geom.equals_exact` called on
a `None` stored geometry while `self.geom` is not `None`). -/
def Trek.saveRow (db : List TrekRow) (self : TrekRow)
    (update_fields : Option (List TrekField)) : Option (List TrekRow) :=
  match self.pk, update_fields with
  | some k, none =>
    match db.find? fun r => r.pk == some k with
    | none => none
    | some old_trek =>
      let fields0 := trekConcreteFields
      let afterGeom : Option (List TrekField) :=
        match self.geom with
        | none => some fields0
        | some g =>
          match old_trek.geom with
          | none => none
          | some og =>
            some (if equalsExact2 og g geotrekTolerance then fields0.erase .geom else fields0)
      match afterGeom with
      | none => none
      | some fields1 =>
        let afterGeom3d : Option (List TrekField) :=
          match self.geom_3d with
          | none => some fields1
          | some g3 =>
            match old_trek.geom_3d with
            | none => none
            | some og3 =>
              some (if equalsExact3 og3 g3 geotrekTolerance then fields1.erase .geom_3d else fields1)
        match afterGeom3d with
        | none => none
        | some fields2 => some (superSave db self (some fields2))
  | _, _ => some (superSave db self update_fields)

/-! ## Trek children navigation -/

/-- A trek pk whose trek is absent from the table or logically deleted. -/
def trekMissingOrDeleted (db : DB) (id : Nat) : Bool :=
  match db.treks.find? fun t => t.topo.id == id with
  | some t => t.topo.deleted
  | none => true

/-- `TrekOrderedChildManager.get_queryset`: excludes rows whose parent or
child trek is deleted. -/
def orderedTrekChildRows (db : DB) : List OrderedTrekChild :=
  db.trek_children.filter fun oc =>
    !trekMissingOrDeleted db oc.parent && !trekMissingOrDeleted db oc.child

/-- `Trek.children_id`: the child ids of this trek's ordered-child rows,
ordered by `order`. -/
def Trek.children_id (db : DB) (parent : Trek) : List Nat :=
  (sortByKey (fun oc => (oc.order : ℚ))
    ((orderedTrekChildRows db).filter fun oc => oc.parent == parent.topo.id)).map
    (fun oc => oc.child)

/-- Python's `list.index`: position of the first occurrence, `none` when the
value is absent (where Python raises `ValueError`). -/
def listIndex (x : Nat) : List Nat → Option Nat
  | [] => none
  | y :: ys => if y == x then some 0 else (listIndex x ys).map (· + 1)

/-- `Trek.previous_id_for(parent)`: `None` when this trek is first among the
parent's ordered children, otherwise the preceding child's id; `.error ()`
models the `ValueError` raised by `list.index` when this trek is not among
them. -/
def Trek.previous_id_for (db : DB) (self parent : Trek) : Except Unit (Option Nat) :=
  let children_id := Trek.children_id db parent
  match listIndex self.topo.id children_id with
  | none => .error ()
  | some 0 => .ok none
  | some (i + 1) => .ok (children_id.get? i)

/-- `Trek.next_id_for(parent)`: `None` when this trek is last among the
parent's ordered children, otherwise the following child's id. -/
def Trek.next_id_for (db : DB) (self parent : Trek) : Except Unit (Option Nat) :=
  let children_id := Trek.children_id db parent
  match listIndex self.topo.id children_id with
  | none => .error ()
  | some i =>
    if i == children_id.length - 1 then .ok none
    else .ok (children_id.get? (i + 1))

/-! ## List helper lemmas -/

theorem mem_insertByKey (key : α → ℚ) (x y : α) (l : List α) :
    y ∈ insertByKey key x l ↔ y = x ∨ y ∈ l := by
  induction l with
  | nil => simp [insertByKey]
  | cons z zs ih =>
    simp only [insertByKey]
    split
    · simp [List.mem_cons]
    · simp only [List.mem_cons, ih]
      tauto

theorem mem_sortByKey (key : α → ℚ) (y : α) (l : List α) :
    y ∈ sortByKey key l ↔ y ∈ l := by
  induction l with
  | nil => simp [sortByKey]
  | cons x xs ih => simp [sortByKey, mem_insertByKey, ih]

theorem mem_distinctByKeyAux (key : α → Nat) (y : α) :
    ∀ (seen : List Nat) (l : List α), y ∈ distinctByKeyAux key seen l → y ∈ l := by
  intro seen l
  induction l generalizing seen with
  | nil => simp [distinctByKeyAux]
  | cons x xs ih =>
    simp only [distinctByKeyAux]
    split
    · intro h
      exact List.mem_cons_of_mem _ (ih _ h)
    · intro h
      rcases List.mem_cons.1 h with rfl | h'
      · exact List.mem_cons_self _ _
      · exact List.mem_cons_of_mem _ (ih _ h')

theorem mem_distinctByKey (key : α → Nat) (y : α) (l : List α) :
    y ∈ distinctByKey key l → y ∈ l :=
  mem_distinctByKeyAux key y [] l

/-! ## Membership characterizations of the relationship queries -/

/-- A trek is returned by `Trek.topology_treks` iff it is stored, not
logically deleted, and satisfies the mode's overlap predicate. -/
theorem mem_topology_treks (s : Settings) (db : DB) (ref : RefTopology) (t : Trek) :
    t ∈ Trek.topology_treks s db ref ↔
      t ∈ db.treks ∧ t.topo.deleted = false ∧
        (if s.TREKKING_TOPOLOGY_ENABLED
         then topologiesOverlap t.topo ref.geomTopo = true
         else bufferIntersects ref.geomTopo.geom s.TREK_POI_INTERSECTION_MARGIN t.topo.geom = true) := by
  by_cases hE : s.TREKKING_TOPOLOGY_ENABLED <;>
    simp [Trek.topology_treks, Trek.overlapping, existingTreks, hE, List.mem_filter,
      and_assoc, Bool.not_eq_true'] <;> tauto

/-- A POI is returned by `POI.topology_all_pois` iff it is stored, not
logically deleted, and satisfies the mode's overlap predicate. -/
theorem mem_topology_all_pois (s : Settings) (db : DB) (ref : RefTopology) (p : POI) :
    p ∈ POI.topology_all_pois s db ref ↔
      p ∈ db.pois ∧ p.topo.deleted = false ∧
        (if s.TREKKING_TOPOLOGY_ENABLED
         then topologiesOverlap p.topo ref.geomTopo = true
         else bufferIntersects ref.geomTopo.geom s.TREK_POI_INTERSECTION_MARGIN p.topo.geom = true) := by
  by_cases hE : s.TREKKING_TOPOLOGY_ENABLED
  · simp [POI.topology_all_pois, POI.overlapping, existingPois, hE, List.mem_filter,
      and_assoc, Bool.not_eq_true']
    tauto
  · cases hg : ref.geomTopo.geom with
    | point p0 =>
      simp [POI.topology_all_pois, existingPois, hE, hg, List.mem_filter,
        and_assoc, Bool.not_eq_true']
      tauto
    | linestring line =>
      simp [POI.topology_all_pois, existingPois, hE, hg, mem_sortByKey,
        List.mem_filter, and_assoc, Bool.not_eq_true']
      tauto

/-- A service is returned by `Service.topology_services` iff it is stored, not
logically deleted, satisfies the mode's overlap predicate and — when the
reference topology is a Trek — its type's practices match the trek's
practice. -/
theorem mem_topology_services (s : Settings) (db : DB) (ref : RefTopology) (sv : Service) :
    sv ∈ Service.topology_services s db ref ↔
      sv ∈ db.services ∧ sv.topo.deleted = false ∧
        (if s.TREKKING_TOPOLOGY_ENABLED
         then topologiesOverlap sv.topo ref.geomTopo = true
         else bufferIntersects ref.geomTopo.geom s.TREK_POI_INTERSECTION_MARGIN sv.topo.geom = true) ∧
        (match ref with
         | .trek tr => practiceFilterMatch sv.type tr.practice = true
         | .topo _ => True) := by
  cases ref with
  | trek tr =>
    by_cases hE : s.TREKKING_TOPOLOGY_ENABLED <;>
      simp [Service.topology_services, Service.overlapping, existingServices, hE,
        List.mem_filter, and_assoc, Bool.not_eq_true'] <;> tauto
  | topo u =>
    by_cases hE : s.TREKKING_TOPOLOGY_ENABLED <;>
      simp [Service.topology_services, Service.overlapping, existingServices, hE,
        List.mem_filter, and_assoc, Bool.not_eq_true'] <;> tauto

/-- `POI.exclude_pois` only removes rows. -/
theorem mem_of_mem_exclude_pois (qs : List POI) (ref : RefTopology) (p : POI) :
    p ∈ POI.exclude_pois qs ref → p ∈ qs := by
  cases ref with
  | trek t =>
    intro h
    exact (List.mem_filter.1 h).1
  | topo u => exact fun h => h

/-- C1: the topological vs buffered strategy is decided by the single
deployment-wide `TREKKING_TOPOLOGY_ENABLED` flag, never per query: for every
relationship query (treks, POIs, services against a reference topology), with
the flag enabled membership is governed by the topological overlapping
predicate, and with it disabled by buffered intersection of the raw 2D
geometry with the configured `TREK_POI_INTERSECTION_MARGIN`. -/
theorem mode_is_single_deployment_wide_choice
    (s : Settings) (db : DB) (ref : RefTopology) (t : Trek) (p : POI) (sv : Service) :
    (t ∈ Trek.topology_treks s db ref ↔
      t ∈ db.treks ∧ t.topo.deleted = false ∧
        (if s.TREKKING_TOPOLOGY_ENABLED
         then topologiesOverlap t.topo ref.geomTopo = true
         else bufferIntersects ref.geomTopo.geom s.TREK_POI_INTERSECTION_MARGIN t.topo.geom = true)) ∧
    (p ∈ POI.topology_all_pois s db ref ↔
      p ∈ db.pois ∧ p.topo.deleted = false ∧
        (if s.TREKKING_TOPOLOGY_ENABLED
         then topologiesOverlap p.topo ref.geomTopo = true
         else bufferIntersects ref.geomTopo.geom s.TREK_POI_INTERSECTION_MARGIN p.topo.geom = true)) ∧
    (sv ∈ Service.topology_services s db ref ↔
      sv ∈ db.services ∧ sv.topo.deleted = false ∧
        (if s.TREKKING_TOPOLOGY_ENABLED
         then topologiesOverlap sv.topo ref.geomTopo = true
         else bufferIntersects ref.geomTopo.geom s.TREK_POI_INTERSECTION_MARGIN sv.topo.geom = true) ∧
        (match ref with
         | .trek tr => practiceFilterMatch sv.type tr.practice = true
         | .topo _ => True)) :=
  ⟨mem_topology_treks s db ref t, mem_topology_all_pois s db ref p,
   mem_topology_services s db ref sv⟩

/-- C2: each "published only" relationship query returns exactly the base
query's rows restricted to the published flag, leaving the base predicate
untouched: `published_topology_treks` filters `topology_treks` on
`published`, `published_topology_pois` filters `topology_pois` on
`published`, and `published_topology_services` filters `topology_services` on
the service type's `published`. -/
theorem published_queries_are_published_filter_of_base
    (s : Settings) (db : DB) (ref : RefTopology) (t : Trek) (p : POI) (sv : Service) :
    (t ∈ Trek.published_topology_treks s db ref ↔
      t ∈ Trek.topology_treks s db ref ∧ t.published = true) ∧
    (p ∈ POI.published_topology_pois s db ref ↔
      p ∈ POI.topology_pois s db ref ∧ p.published = true) ∧
    (sv ∈ Service.published_topology_services s db ref ↔
      sv ∈ Service.topology_services s db ref ∧ sv.type.published = true) := by
  refine ⟨?_, ?_, ?_⟩ <;>
    simp [Trek.published_topology_treks, POI.published_topology_pois,
      Service.published_topology_services, List.mem_filter]

/-! ## Concrete fixtures (used by witnesses and counterexamples) -/

def fixPractice : Practice := ⟨7, some 120⟩

def fixTopo1 : Topology := ⟨1, false, .linestring [(0, 0), (4, 0)], [⟨1, 0, 1, 0, 0⟩]⟩

def fixTopo2 : Topology := ⟨2, false, .point (1, 0), [⟨1, 0, 0, 0, 0⟩]⟩

def fixTopo3 : Topology := ⟨3, false, .point (2, 0), [⟨1, 1, 1, 0, 0⟩]⟩

def fixTrek : Trek := ⟨fixTopo1, true, some fixPractice, []⟩

def fixPoi : POI := ⟨fixTopo2, true, ⟨1⟩⟩

def fixServiceType : ServiceType := ⟨1, true, [7]⟩

def fixService : Service := ⟨fixTopo3, fixServiceType⟩

def fixDB : DB := ⟨[fixTrek], [fixPoi], [fixService], []⟩

/-- Topological mode enabled, buffer margin 5, tourism margin 500. -/
def fixSettings : Settings := ⟨true, 5, 500⟩

/-- A POI snapped onto path 1 but geometrically far from `fixTrek`'s raw
geometry (outside any margin-5 buffer). -/
def farPoi : POI := ⟨⟨4, false, .point (50, 30), [⟨1, 0, 1, 0, 0⟩]⟩, true, ⟨1⟩⟩

def c6db : DB := ⟨[fixTrek], [farPoi], [], []⟩

/-! ## C3: logical deletion -/

/-- C3: every relationship query between features (treks, POIs, services on a
path or against a reference topology, in either mode) excludes
logically-deleted features: a returned feature always has `deleted = false`. -/
theorem relationship_queries_exclude_deleted
    (s : Settings) (db : DB) (ref : RefTopology) (path : Nat)
    (t : Trek) (p : POI) (sv : Service) :
    (t ∈ Trek.path_treks db path → t.topo.deleted = false) ∧
    (p ∈ POI.path_pois db path → p.topo.deleted = false) ∧
    (sv ∈ Service.path_services db path → sv.topo.deleted = false) ∧
    (t ∈ Trek.topology_treks s db ref → t.topo.deleted = false) ∧
    (p ∈ POI.topology_pois s db ref → p.topo.deleted = false) ∧
    (sv ∈ Service.topology_services s db ref → sv.topo.deleted = false) := by
  refine ⟨?_, ?_, ?_, ?_, ?_, ?_⟩
  · intro h
    simp only [Trek.path_treks, existingTreks] at h
    have h1 := (mem_sortByKey _ _ _).1 (mem_distinctByKey _ _ _ h)
    have h2 := (List.mem_filter.1 (List.mem_filter.1 h1).1).2
    simpa [Bool.not_eq_true'] using h2
  · intro h
    simp only [POI.path_pois, existingPois] at h
    have h1 := mem_distinctByKey _ _ _ h
    have h2 := (List.mem_filter.1 (List.mem_filter.1 h1).1).2
    simpa [Bool.not_eq_true'] using h2
  · intro h
    simp only [Service.path_services, existingServices] at h
    have h1 := mem_distinctByKey _ _ _ h
    have h2 := (List.mem_filter.1 (List.mem_filter.1 h1).1).2
    simpa [Bool.not_eq_true'] using h2
  · exact fun h => ((mem_topology_treks s db ref t).1 h).2.1
  · intro h
    simp only [POI.topology_pois] at h
    exact ((mem_topology_all_pois s db ref p).1 (mem_of_mem_exclude_pois _ _ _ h)).2.1
  · exact fun h => ((mem_topology_services s db ref sv).1 h).2.1

theorem relationship_queries_exclude_deleted_witness :
    fixTrek.topo.deleted = false ∧ fixPoi.topo.deleted = false ∧
    fixService.topo.deleted = false ∧ fixTrek.topo.deleted = false ∧
    fixPoi.topo.deleted = false ∧ fixService.topo.deleted = false :=
  ⟨(relationship_queries_exclude_deleted fixSettings fixDB (.topo fixTopo1) 1
      fixTrek fixPoi fixService).1 (by decide),
   (relationship_queries_exclude_deleted fixSettings fixDB (.topo fixTopo1) 1
      fixTrek fixPoi fixService).2.1 (by decide),
   (relationship_queries_exclude_deleted fixSettings fixDB (.topo fixTopo1) 1
      fixTrek fixPoi fixService).2.2.1 (by decide),
   (relationship_queries_exclude_deleted fixSettings fixDB (.topo fixTopo1) 1
      fixTrek fixPoi fixService).2.2.2.1 (by decide),
   (relationship_queries_exclude_deleted fixSettings fixDB (.topo fixTopo1) 1
      fixTrek fixPoi fixService).2.2.2.2.1 (by decide),
   (relationship_queries_exclude_deleted fixSettings fixDB (.topo fixTopo1) 1
      fixTrek fixPoi fixService).2.2.2.2.2 (by decide)⟩

/-! ## C5: proximity margins -/

/-- C5: the buffered-mode proximity margin is feature-type-specific: a trek
uses its practice's configured distance when the practice exists with a
non-null distance and the global `TOURISM_INTERSECTION_MARGIN` otherwise;
POIs and services always use the global margin. -/
theorem proximity_margins_per_feature_type
    (s : Settings) (t : Trek) (pr : Practice) (d : Int) (p : POI) (sv : Service) :
    (t.practice = some pr → pr.distance = some d → Trek.distance s t = d) ∧
    (t.practice = some pr → pr.distance = none →
      Trek.distance s t = s.TOURISM_INTERSECTION_MARGIN) ∧
    (t.practice = none → Trek.distance s t = s.TOURISM_INTERSECTION_MARGIN) ∧
    POI.distance s p = s.TOURISM_INTERSECTION_MARGIN ∧
    Service.distance s sv = s.TOURISM_INTERSECTION_MARGIN := by
  refine ⟨?_, ?_, ?_, rfl, rfl⟩
  · intro hp hd
    simp [Trek.distance, hp, hd]
  · intro hp hd
    simp [Trek.distance, hp, hd]
  · intro hp
    simp [Trek.distance, hp]

theorem proximity_margins_per_feature_type_witness :
    Trek.distance fixSettings fixTrek = 120 ∧
    POI.distance fixSettings fixPoi = 500 ∧
    Service.distance fixSettings fixService = 500 :=
  ⟨(proximity_margins_per_feature_type fixSettings fixTrek fixPractice 120 fixPoi fixService).1
      rfl rfl,
   (proximity_margins_per_feature_type fixSettings fixTrek fixPractice 120 fixPoi fixService).2.2.2.1,
   (proximity_margins_per_feature_type fixSettings fixTrek fixPractice 120 fixPoi fixService).2.2.2.2⟩

/-! ## C8: practice restriction of the services query -/

/-- C8: when the reference topology is a Trek with a practice, the services
query is the unrestricted query additionally filtered on the service type's
practices containing that practice; for a non-Trek reference no practice
restriction is applied. -/
theorem services_restricted_by_trek_practice
    (s : Settings) (db : DB) (tr : Trek) (pr : Practice) (u : Topology) (sv : Service)
    (hp : tr.practice = some pr) :
    (sv ∈ Service.topology_services s db (.trek tr) ↔
      sv ∈ Service.topology_services s db (.topo tr.topo) ∧
        sv.type.practices.contains pr.id = true) ∧
    (sv ∈ Service.topology_services s db (.topo u) ↔
      sv ∈ db.services ∧ sv.topo.deleted = false ∧
        (if s.TREKKING_TOPOLOGY_ENABLED
         then topologiesOverlap sv.topo u = true
         else bufferIntersects u.geom s.TREK_POI_INTERSECTION_MARGIN sv.topo.geom = true)) := by
  constructor
  · rw [mem_topology_services, mem_topology_services]
    simp [RefTopology.geomTopo, practiceFilterMatch, hp]
    tauto
  · rw [mem_topology_services]
    simp [RefTopology.geomTopo]

theorem services_restricted_by_trek_practice_witness :
    fixTrek.practice = some fixPractice ∧
    ((fixService ∈ Service.topology_services fixSettings fixDB (.trek fixTrek) ↔
       fixService ∈ Service.topology_services fixSettings fixDB (.topo fixTrek.topo) ∧
         fixService.type.practices.contains fixPractice.id = true) ∧
     (fixService ∈ Service.topology_services fixSettings fixDB (.topo fixTopo1) ↔
       fixService ∈ fixDB.services ∧ fixService.topo.deleted = false ∧
         (if fixSettings.TREKKING_TOPOLOGY_ENABLED
          then topologiesOverlap fixService.topo fixTopo1 = true
          else bufferIntersects fixTopo1.geom fixSettings.TREK_POI_INTERSECTION_MARGIN
                 fixService.topo.geom = true))) :=
  ⟨rfl, services_restricted_by_trek_practice fixSettings fixDB fixTrek fixPractice fixTopo1
    fixService rfl⟩

/-! ## C6: POI-to-Trek relationship in topological mode -/

/-- C6 counterexample: with topological mode enabled, the POIs related to a
trek are NOT the buffered-geometry intersection result — `farPoi` shares path
1 with `fixTrek` (so the topological query returns it) while lying far outside
the margin-5 buffer of the trek's raw geometry (so the buffered computation
would not). -/
theorem poi_to_trek_buffered_in_topological_mode_counterexample :
    POI.topology_all_pois fixSettings c6db (.trek fixTrek) ≠
      (existingPois c6db).filter (fun p =>
        bufferIntersects fixTrek.topo.geom fixSettings.TREK_POI_INTERSECTION_MARGIN
          p.topo.geom) := by
  have hL : POI.topology_all_pois fixSettings c6db (.trek fixTrek) = [farPoi] := by decide
  have hR : (existingPois c6db).filter (fun p =>
      bufferIntersects fixTrek.topo.geom fixSettings.TREK_POI_INTERSECTION_MARGIN
        p.topo.geom) = [] := by
    simp only [existingPois, c6db, farPoi, fixTrek, fixTopo1, fixSettings, bufferIntersects,
      Geom.pts, distSq, List.filter, List.any, Bool.not_false]
    norm_num
  rw [hL, hR]
  simp

/-- C6 (amended): with topological mode enabled, the POI-to-Trek relationship
query uses the topological shared-segment overlapping predicate — the same
`cls.overlapping` as treks and services — not a planar buffer; buffering is
used only when topological mode is disabled. -/
theorem poi_to_trek_topological_when_enabled
    (s : Settings) (db : DB) (ref : RefTopology) (p : POI)
    (hE : s.TREKKING_TOPOLOGY_ENABLED = true) :
    p ∈ POI.topology_all_pois s db ref ↔
      p ∈ db.pois ∧ p.topo.deleted = false ∧
        topologiesOverlap p.topo ref.geomTopo = true := by
  rw [mem_topology_all_pois, hE]
  simp

theorem poi_to_trek_topological_when_enabled_witness :
    fixSettings.TREKKING_TOPOLOGY_ENABLED = true ∧
    (farPoi ∈ POI.topology_all_pois fixSettings c6db (.trek fixTrek) ↔
      farPoi ∈ c6db.pois ∧ farPoi.topo.deleted = false ∧
        topologiesOverlap farPoi.topo (RefTopology.trek fixTrek).geomTopo = true) :=
  ⟨rfl, poi_to_trek_topological_when_enabled fixSettings c6db (.trek fixTrek) farPoi rfl⟩

/-! ## C4: split redistribution scenario -/

/-- C4: splitting segment 1 (2D length 100) at position 0.3 yields segments of
lengths 30 and 70, and a topology holding the single aggregation [0.2, 0.8] of
segment 1 afterwards holds exactly [2/3, 1] of the first new segment followed
by [0, 5/7] of the second (0.2/0.3 = 2/3 ≈ 0.667 and (0.8−0.3)/0.7 = 5/7 ≈
0.714), with order and lateral_offset preserved. -/
theorem split_rescales_spanning_aggregation :
    splitSegment ⟨1, 100⟩ (3/10) 2 3 = (⟨2, 30⟩, ⟨3, 70⟩) ∧
    splitAggregations 1 (3/10) 2 3 [⟨1, 2/10, 8/10, 0, 5⟩] =
      [⟨2, 2/3, 1, 0, 5⟩, ⟨3, 0, 5/7, 0, 5⟩] := by
  constructor
  · simp only [splitSegment, Prod.mk.injEq, SplitSegment.mk.injEq]
    norm_num
  · have h : splitAggregation 1 (3/10) 2 3 ⟨1, 2/10, 8/10, 0, 5⟩ =
        [⟨2, 2/3, 1, 0, 5⟩, ⟨3, 0, 5/7, 0, 5⟩] := by
      unfold splitAggregation
      norm_num [List.cons.injEq, PathAggregation.mk.injEq]
    simp [splitAggregations, h]

/-! ## C7: degenerate elevation input -/

/-- C7: an elevation-sampler input with fewer than 2 coordinates or zero 2D
length yields every derived scalar metric (3D length, ascent, descent,
min_elevation, max_elevation, slope) equal to 0, with `geom_3d` equal to
`geom_2d` lifted to a constant elevation — for every distance function,
raster and densification step. -/
theorem elevation_degenerate_input_all_zero
    (dist2 : Pt → Pt → ℚ) (dist3 : Pt3 → Pt3 → ℚ) (raster : Pt → Option ℚ)
    (maxLen : ℚ) (geom2d : List Pt)
    (h : geom2d.length < 2 ∨ polylineLength dist2 geom2d = 0) :
    (elevationSample dist2 dist3 raster maxLen geom2d).length_3d = 0 ∧
    (elevationSample dist2 dist3 raster maxLen geom2d).ascent = 0 ∧
    (elevationSample dist2 dist3 raster maxLen geom2d).descent = 0 ∧
    (elevationSample dist2 dist3 raster maxLen geom2d).min_elevation = 0 ∧
    (elevationSample dist2 dist3 raster maxLen geom2d).max_elevation = 0 ∧
    (elevationSample dist2 dist3 raster maxLen geom2d).slope = 0 ∧
    ∃ c, (elevationSample dist2 dist3 raster maxLen geom2d).geom_3d =
      geom2d.map fun p => (p.1, p.2, c) := by
  simp only [elevationSample]
  rw [if_pos h]
  exact ⟨rfl, rfl, rfl, rfl, rfl, rfl, firstValid (geom2d.map raster), rfl⟩

def c7raster : Pt → Option ℚ := fun _ => some 42

theorem elevation_degenerate_input_all_zero_witness :
    (([((0 : ℚ), (0 : ℚ))] : List Pt).length < 2 ∨
      polylineLength distSq [((0 : ℚ), (0 : ℚ))] = 0) ∧
    ((elevationSample distSq distSq3xy c7raster 25 [((0 : ℚ), (0 : ℚ))]).length_3d = 0 ∧
     (elevationSample distSq distSq3xy c7raster 25 [((0 : ℚ), (0 : ℚ))]).ascent = 0 ∧
     (elevationSample distSq distSq3xy c7raster 25 [((0 : ℚ), (0 : ℚ))]).descent = 0 ∧
     (elevationSample distSq distSq3xy c7raster 25 [((0 : ℚ), (0 : ℚ))]).min_elevation = 0 ∧
     (elevationSample distSq distSq3xy c7raster 25 [((0 : ℚ), (0 : ℚ))]).max_elevation = 0 ∧
     (elevationSample distSq distSq3xy c7raster 25 [((0 : ℚ), (0 : ℚ))]).slope = 0 ∧
     ∃ c, (elevationSample distSq distSq3xy c7raster 25 [((0 : ℚ), (0 : ℚ))]).geom_3d =
       ([((0 : ℚ), (0 : ℚ))] : List Pt).map fun p => (p.1, p.2, c)) :=
  ⟨Or.inl (by decide),
   elevation_degenerate_input_all_zero distSq distSq3xy c7raster 25 [((0 : ℚ), (0 : ℚ))]
     (Or.inl (by decide))⟩

/-! ## C9: geometry-preserving save -/

/-- `find?` on a pk-preserving row transformation. -/
theorem find?_map_pk (db : List TrekRow) (f : TrekRow → TrekRow)
    (hf : ∀ r, (f r).pk = r.pk) (k : Nat) :
    (db.map f).find? (fun r => r.pk == some k) =
      (db.find? fun r => r.pk == some k).map f := by
  induction db with
  | nil => rfl
  | cons r rs ih =>
    simp only [List.map_cons, List.find?_cons]
    rw [hf r]
    cases h : (r.pk == some k)
    · simpa using ih
    · rfl

/-- C9: saving an already-persisted trek without `update_fields` leaves the
stored `geom` (resp. `geom_3d`) column unchanged whenever the new geometry
equals the stored one within tolerance 0.00001, while every other
non-primary-key, non-many-to-many concrete field is still written from the
instance. -/
theorem trek_save_skips_unchanged_geometry
    (db : List TrekRow) (self old : TrekRow) (k : Nat)
    (g og : List Pt) (g3 og3 : List Pt3)
    (hpk : self.pk = some k)
    (hfind : db.find? (fun r => r.pk == some k) = some old)
    (hg : self.geom = some g) (hog : old.geom = some og)
    (hg3 : self.geom_3d = some g3) (hog3 : old.geom_3d = some og3) :
    ∃ db' r', Trek.saveRow db self none = some db' ∧
      db'.find? (fun r => r.pk == some k) = some r' ∧
      (equalsExact2 og g geotrekTolerance = true → r'.geom = old.geom) ∧
      (equalsExact3 og3 g3 geotrekTolerance = true → r'.geom_3d = old.geom_3d) ∧
      r'.name = self.name ∧ r'.departure = self.departure ∧
      r'.arrival = self.arrival ∧ r'.duration = self.duration ∧
      r'.practice_id = self.practice_id ∧ r'.published = self.published ∧
      r'.deleted = self.deleted ∧ r'.pk = old.pk := by
  have hmem := List.mem_of_find?_eq_some hfind
  have hpold : old.pk = some k := by
    simpa using List.find?_some hfind
  have hany : (db.any fun r => r.pk == some k) = true :=
    List.any_eq_true.2 ⟨old, hmem, by simpa using hpold⟩
  have main : ∀ F : List TrekField,
      Trek.saveRow db self none = some (superSave db self (some F)) →
      ∃ db' r', Trek.saveRow db self none = some db' ∧
        db'.find? (fun r => r.pk == some k) = some r' ∧ r' = writeFields old self F := by
    intro F hF
    refine ⟨_, _, hF, ?_, rfl⟩
    simp only [superSave, hpk, hany, if_pos, Option.getD_some]
    rw [find?_map_pk _ _
      (fun r => by by_cases h : (r.pk == some k) = true <;> simp [h, writeFields]) k, hfind]
    simp [hpold]
  by_cases h2 : equalsExact2 og g geotrekTolerance = true
  · by_cases h3 : equalsExact3 og3 g3 geotrekTolerance = true
    · obtain ⟨db', r', hdb, hfind', hr⟩ :=
        main ((trekConcreteFields.erase TrekField.geom).erase TrekField.geom_3d)
          (by simp only [Trek.saveRow, hpk, hfind, hg, hog, hg3, hog3, h2, h3, if_true])
      subst hr
      refine ⟨db', _, hdb, hfind', fun _ => ?_, fun _ => ?_, ?_, ?_, ?_, ?_, ?_, ?_, ?_, rfl⟩ <;>
        simp only [writeFields]
      · rw [if_neg (by decide)]
      · rw [if_neg (by decide)]
      all_goals rw [if_pos (by decide)]
    · obtain ⟨db', r', hdb, hfind', hr⟩ :=
        main (trekConcreteFields.erase TrekField.geom)
          (by simp [Trek.saveRow, hpk, hfind, hg, hog, hg3, hog3, h2, h3])
      subst hr
      refine ⟨db', _, hdb, hfind', fun _ => ?_, fun hx => absurd hx h3, ?_, ?_, ?_, ?_, ?_, ?_,
        ?_, rfl⟩ <;> simp only [writeFields]
      · rw [if_neg (by decide)]
      all_goals rw [if_pos (by decide)]
  · by_cases h3 : equalsExact3 og3 g3 geotrekTolerance = true
    · obtain ⟨db', r', hdb, hfind', hr⟩ :=
        main (trekConcreteFields.erase TrekField.geom_3d)
          (by simp [Trek.saveRow, hpk, hfind, hg, hog, hg3, hog3, h2, h3])
      subst hr
      refine ⟨db', _, hdb, hfind', fun hx => absurd hx h2, fun _ => ?_, ?_, ?_, ?_, ?_, ?_, ?_,
        ?_, rfl⟩ <;> simp only [writeFields]
      · rw [if_neg (by decide)]
      all_goals rw [if_pos (by decide)]
    · obtain ⟨db', r', hdb, hfind', hr⟩ :=
        main trekConcreteFields
          (by simp [Trek.saveRow, hpk, hfind, hg, hog, hg3, hog3, h2, h3])
      subst hr
      refine ⟨db', _, hdb, hfind', fun hx => absurd hx h2, fun hx => absurd hx h3, ?_, ?_, ?_,
        ?_, ?_, ?_, ?_, rfl⟩ <;> simp only [writeFields]
      all_goals rw [if_pos (by decide)]

def w9old : TrekRow :=
  ⟨some 1, "old", "d0", "a0", none, none, false, false,
   some [(0, 0), (1, 0)], some [(0, 0, 0), (1, 0, 0)]⟩

def w9self : TrekRow :=
  ⟨some 1, "new", "d1", "a1", some 2, some 7, true, false,
   some [(0, 0), (1, 0)], some [(0, 0, 0), (1, 0, 0)]⟩

theorem trek_save_skips_unchanged_geometry_witness :
    w9self.pk = some 1 ∧
    [w9old].find? (fun r => r.pk == some 1) = some w9old ∧
    w9self.geom = some [(0, 0), (1, 0)] ∧ w9old.geom = some [(0, 0), (1, 0)] ∧
    w9self.geom_3d = some [(0, 0, 0), (1, 0, 0)] ∧
    w9old.geom_3d = some [(0, 0, 0), (1, 0, 0)] ∧
    (∃ db' r', Trek.saveRow [w9old] w9self none = some db' ∧
      db'.find? (fun r => r.pk == some 1) = some r' ∧
      (equalsExact2 [(0, 0), (1, 0)] [(0, 0), (1, 0)] geotrekTolerance = true →
        r'.geom = w9old.geom) ∧
      (equalsExact3 [(0, 0, 0), (1, 0, 0)] [(0, 0, 0), (1, 0, 0)] geotrekTolerance = true →
        r'.geom_3d = w9old.geom_3d) ∧
      r'.name = w9self.name ∧ r'.departure = w9self.departure ∧
      r'.arrival = w9self.arrival ∧ r'.duration = w9self.duration ∧
      r'.practice_id = w9self.practice_id ∧ r'.published = w9self.published ∧
      r'.deleted = w9self.deleted ∧ r'.pk = w9old.pk) :=
  ⟨rfl, rfl, rfl, rfl, rfl, rfl,
   trek_save_skips_unchanged_geometry [w9old] w9self w9old 1
     [(0, 0), (1, 0)] [(0, 0), (1, 0)] [(0, 0, 0), (1, 0, 0)] [(0, 0, 0), (1, 0, 0)]
     rfl rfl rfl rfl rfl rfl⟩

/-! ## C10: previous / next child navigation -/

theorem listIndex_get (x : Nat) :
    ∀ (l : List Nat) (i : Nat), listIndex x l = some i → l.get? i = some x := by
  intro l
  induction l with
  | nil =>
    intro i h
    simp [listIndex] at h
  | cons y ys ih =>
    intro i h
    simp only [listIndex] at h
    by_cases hy : (y == x) = true
    · rw [if_pos hy] at h
      cases h
      simp only [List.get?]
      exact congrArg some (eq_of_beq hy)
    · rw [if_neg hy] at h
      cases hys : listIndex x ys with
      | none =>
        rw [hys] at h
        simp at h
      | some j =>
        rw [hys] at h
        simp only [Option.map_some'] at h
        cases h
        simp only [List.get?]
        exact ih j hys

theorem listIndex_mem (x : Nat) :
    ∀ l : List Nat, x ∈ l → ∃ i, listIndex x l = some i := by
  intro l
  induction l with
  | nil =>
    intro h
    simp at h
  | cons y ys ih =>
    intro h
    by_cases hy : (y == x) = true
    · exact ⟨0, by simp [listIndex, hy]⟩
    · rcases List.mem_cons.1 h with rfl | h'
      · exact absurd (beq_self_eq_true x) hy
      · obtain ⟨j, hj⟩ := ih h'
        exact ⟨j + 1, by simp [listIndex, hy, hj]⟩

theorem listIndex_of_get (x : Nat) :
    ∀ (l : List Nat), l.Nodup → ∀ i, l.get? i = some x → listIndex x l = some i := by
  intro l
  induction l with
  | nil =>
    intro _ i h
    simp at h
  | cons y ys ih =>
    intro hnd i h
    rcases List.nodup_cons.1 hnd with ⟨hyn, hnd'⟩
    cases i with
    | zero =>
      simp only [List.get?] at h
      obtain rfl : y = x := Option.some.inj h
      simp [listIndex]
    | succ j =>
      simp only [List.get?] at h
      have hmemx : x ∈ ys := List.get?_mem h
      have hyne : (y == x) = false :=
        beq_eq_false_iff_ne.2 fun hyx => hyn (by rw [hyx]; exact hmemx)
      simp [listIndex, hyne, ih hnd' j h]

theorem getLast?_as_get? (l : List Nat) : l.getLast? = l.get? (l.length - 1) := by
  rw [List.getLast?_eq_getElem?, List.get?_eq_getElem?]

/-- C10: against the parent's order-sorted children list containing this
trek, `previous_id_for` is `None` exactly when the trek is first and
otherwise the immediately preceding child's id, and `next_id_for` is `None`
exactly when the trek is last and otherwise the immediately following child's
id (children are pairwise distinct, as enforced by the unique_together
constraint on `OrderedTrekChild`). -/
theorem trek_previous_next_navigation
    (db : DB) (self parent : Trek) (l : List Nat)
    (hl : Trek.children_id db parent = l)
    (hmem : self.topo.id ∈ l) (hnd : l.Nodup) :
    (Trek.previous_id_for db self parent = .ok none ↔ l.head? = some self.topo.id) ∧
    (∀ i p, l.get? i = some p → l.get? (i + 1) = some self.topo.id →
      Trek.previous_id_for db self parent = .ok (some p)) ∧
    (Trek.next_id_for db self parent = .ok none ↔ l.getLast? = some self.topo.id) ∧
    (∀ i nx, l.get? i = some self.topo.id → l.get? (i + 1) = some nx →
      Trek.next_id_for db self parent = .ok (some nx)) := by
  obtain ⟨i0, hi0⟩ := listIndex_mem _ _ hmem
  have hget0 := listIndex_get _ _ _ hi0
  cases i0 with
  | zero =>
    have hhead : l.head? = some self.topo.id := by
      rw [← List.get?_zero]
      exact hget0
    have hprev : Trek.previous_id_for db self parent = Except.ok none := by
      simp only [Trek.previous_id_for, hl, hi0]
    have hnext : Trek.next_id_for db self parent =
        (if (0 : Nat) == l.length - 1 then Except.ok none
         else Except.ok (l.get? (0 + 1))) := by
      simp only [Trek.next_id_for, hl, hi0]
    refine ⟨?_, ?_, ?_, ?_⟩
    · simp [hprev, hhead]
    · intro i p hp hx
      exfalso
      have hidx := listIndex_of_get _ _ hnd _ hx
      rw [hi0] at hidx
      simp at hidx
    · rw [hnext]
      by_cases hlen : l.length - 1 = 0
      · rw [if_pos (by simp [hlen])]
        constructor
        · intro _
          rw [getLast?_as_get?, hlen]
          exact hget0
        · intro _
          rfl
      · rw [if_neg (by simp only [beq_iff_eq]; exact fun h => hlen h.symm)]
        constructor
        · intro h'
          exfalso
          have h1 : 0 < l.length := (List.get?_eq_some.1 hget0).1
          have hn : l.get? (0 + 1) = none := by
            simpa using h'
          have := List.get?_eq_none.1 hn
          omega
        · intro hlast
          exfalso
          rw [getLast?_as_get?] at hlast
          have hidx := listIndex_of_get _ _ hnd _ hlast
          rw [hi0] at hidx
          have h0 : (0 : Nat) = l.length - 1 := Option.some.inj hidx
          exact hlen h0.symm
    · intro i nx hx hnx
      have hidx := listIndex_of_get _ _ hnd _ hx
      rw [hi0] at hidx
      obtain rfl : (0 : Nat) = i := Option.some.inj hidx
      have h2 : 2 ≤ l.length := by
        have := (List.get?_eq_some.1 hnx).1
        omega
      rw [hnext, if_neg (by simp only [beq_iff_eq]; omega)]
      rw [hnx]
  | succ j =>
    have hjlt : j + 1 < l.length := (List.get?_eq_some.1 hget0).1
    have hprev : Trek.previous_id_for db self parent = Except.ok (l.get? j) := by
      simp only [Trek.previous_id_for, hl, hi0]
    have hnext : Trek.next_id_for db self parent =
        (if (j + 1 : Nat) == l.length - 1 then Except.ok none
         else Except.ok (l.get? (j + 1 + 1))) := by
      simp only [Trek.next_id_for, hl, hi0]
    refine ⟨?_, ?_, ?_, ?_⟩
    · constructor
      · intro h'
        exfalso
        rw [hprev] at h'
        have hn : l.get? j = none := by
          simpa using h'
        have := List.get?_eq_none.1 hn
        omega
      · intro hhead
        exfalso
        rw [← List.get?_zero] at hhead
        have hidx := listIndex_of_get _ _ hnd _ hhead
        rw [hi0] at hidx
        simp at hidx
    · intro i p hp hx
      have hidx := listIndex_of_get _ _ hnd _ hx
      rw [hi0] at hidx
      have hji : j + 1 = i + 1 := Option.some.inj hidx
      obtain rfl : j = i := Nat.succ.inj hji
      rw [hprev, hp]
    · rw [hnext]
      by_cases hlen : j + 1 = l.length - 1
      · rw [if_pos (by simp [hlen])]
        constructor
        · intro _
          rw [getLast?_as_get?, ← hlen]
          exact hget0
        · intro _
          rfl
      · rw [if_neg (by simp only [beq_iff_eq]; exact hlen)]
        constructor
        · intro h'
          exfalso
          have hn : l.get? (j + 1 + 1) = none := by
            simpa using h'
          have := List.get?_eq_none.1 hn
          omega
        · intro hlast
          exfalso
          rw [getLast?_as_get?] at hlast
          have hidx := listIndex_of_get _ _ hnd _ hlast
          rw [hi0] at hidx
          exact hlen (Option.some.inj hidx)
    · intro i nx hx hnx
      have hidx := listIndex_of_get _ _ hnd _ hx
      rw [hi0] at hidx
      obtain rfl : j + 1 = i := Option.some.inj hidx
      have h3 : j + 1 + 1 < l.length := by
        have := (List.get?_eq_some.1 hnx).1
        omega
      rw [hnext, if_neg (by simp only [beq_iff_eq]; omega)]
      rw [hnx]

def w10parent : Trek := ⟨⟨100, false, .point (0, 0), []⟩, true, none, []⟩

def w10childA : Trek := ⟨⟨10, false, .point (0, 0), []⟩, true, none, []⟩

def w10childB : Trek := ⟨⟨20, false, .point (0, 0), []⟩, true, none, []⟩

def w10childC : Trek := ⟨⟨30, false, .point (0, 0), []⟩, true, none, []⟩

def w10db : DB :=
  ⟨[w10parent, w10childA, w10childB, w10childC], [], [],
   [⟨100, 10, 0⟩, ⟨100, 20, 1⟩, ⟨100, 30, 2⟩]⟩

theorem trek_previous_next_navigation_witness :
    Trek.previous_id_for w10db w10childB w10parent = .ok (some 10) ∧
    Trek.next_id_for w10db w10childB w10parent = .ok (some 30) :=
  ⟨(trek_previous_next_navigation w10db w10childB w10parent [10, 20, 30]
      (by decide) (by decide) (by decide)).2.1 0 10 (by decide) (by decide),
   (trek_previous_next_navigation w10db w10childB w10parent [10, 20, 30]
      (by decide) (by decide) (by decide)).2.2.2 1 30 (by decide) (by decide)⟩
